import Mathlib

/-
  A shallow embedding in Lean 4 of the byte-scanning utility core of the
  goldmark Markdown library (src/util/util.go), together with theorems that
  settle the specification claims about it.

  Conventions:
  - Go byte slices are modelled as List Nat, each element the byte value.
  - Go indexing s[i] whose bound is already established by control flow is
    modelled with List.getD; an indexing operation that can be out of bounds
    at run time (a Go panic) is modelled by returning Option.none from the
    enclosing function.
  - Go int values that can be compared against negative sentinels are
    modelled as Int.
-/

namespace GoldmarkUtil

set_option maxRecDepth 4000

/-- Byte classification table spaceTable from util.go. -/
def spaceTable : List Nat :=
  [0, 0, 0, 0, 0, 0, 0, 0, 0, 1, 1, 1, 1, 1, 0, 0, 0, 0, 0, 0, 0, 0, 0, 0, 0, 0, 0, 0, 0, 0, 0, 0, 1, 0, 0, 0, 0, 0, 0, 0, 0, 0, 0, 0, 0, 0, 0, 0, 0, 0, 0, 0, 0, 0, 0, 0, 0, 0, 0, 0, 0, 0, 0, 0, 0, 0, 0, 0, 0, 0, 0, 0, 0, 0, 0, 0, 0, 0, 0, 0, 0, 0, 0, 0, 0, 0, 0, 0, 0, 0, 0, 0, 0, 0, 0, 0, 0, 0, 0, 0, 0, 0, 0, 0, 0, 0, 0, 0, 0, 0, 0, 0, 0, 0, 0, 0, 0, 0, 0, 0, 0, 0, 0, 0, 0, 0, 0, 0, 0, 0, 0, 0, 0, 0, 0, 0, 0, 0, 0, 0, 0, 0, 0, 0, 0, 0, 0, 0, 0, 0, 0, 0, 0, 0, 0, 0, 0, 0, 0, 0, 0, 0, 0, 0, 0, 0, 0, 0, 0, 0, 0, 0, 0, 0, 0, 0, 0, 0, 0, 0, 0, 0, 0, 0, 0, 0, 0, 0, 0, 0, 0, 0, 0, 0, 0, 0, 0, 0, 0, 0, 0, 0, 0, 0, 0, 0, 0, 0, 0, 0, 0, 0, 0, 0, 0, 0, 0, 0, 0, 0, 0, 0, 0, 0, 0, 0, 0, 0, 0, 0, 0, 0, 0, 0, 0, 0, 0, 0, 0, 0, 0, 0, 0, 0, 0, 0, 0, 0, 0, 0, 0, 0, 0, 0, 0, 0]

/-- Byte classification table punctTable from util.go. -/
def punctTable : List Nat :=
  [0, 0, 0, 0, 0, 0, 0, 0, 0, 0, 0, 0, 0, 0, 0, 0, 0, 0, 0, 0, 0, 0, 0, 0, 0, 0, 0, 0, 0, 0, 0, 0, 0, 1, 1, 1, 1, 1, 1, 1, 1, 1, 1, 1, 1, 1, 1, 1, 0, 0, 0, 0, 0, 0, 0, 0, 0, 0, 1, 1, 1, 1, 1, 1, 1, 0, 0, 0, 0, 0, 0, 0, 0, 0, 0, 0, 0, 0, 0, 0, 0, 0, 0, 0, 0, 0, 0, 0, 0, 0, 0, 1, 1, 1, 1, 1, 1, 0, 0, 0, 0, 0, 0, 0, 0, 0, 0, 0, 0, 0, 0, 0, 0, 0, 0, 0, 0, 0, 0, 0, 0, 0, 0, 1, 1, 1, 1, 0, 0, 0, 0, 0, 0, 0, 0, 0, 0, 0, 0, 0, 0, 0, 0, 0, 0, 0, 0, 0, 0, 0, 0, 0, 0, 0, 0, 0, 0, 0, 0, 0, 0, 0, 0, 0, 0, 0, 0, 0, 0, 0, 0, 0, 0, 0, 0, 0, 0, 0, 0, 0, 0, 0, 0, 0, 0, 0, 0, 0, 0, 0, 0, 0, 0, 0, 0, 0, 0, 0, 0, 0, 0, 0, 0, 0, 0, 0, 0, 0, 0, 0, 0, 0, 0, 0, 0, 0, 0, 0, 0, 0, 0, 0, 0, 0, 0, 0, 0, 0, 0, 0, 0, 0, 0, 0, 0, 0, 0, 0, 0, 0, 0, 0, 0, 0, 0, 0, 0, 0, 0, 0, 0, 0, 0, 0, 0, 0]

/-- Byte classification table urlEscapeTable from util.go. -/
def urlEscapeTable : List Nat :=
  [0, 0, 0, 0, 0, 0, 0, 0, 0, 0, 0, 0, 0, 0, 0, 0, 0, 0, 0, 0, 0, 0, 0, 0, 0, 0, 0, 0, 0, 0, 0, 0, 0, 1, 0, 1, 1, 0, 1, 1, 1, 1, 1, 1, 1, 1, 1, 1, 1, 1, 1, 1, 1, 1, 1, 1, 1, 1, 1, 1, 0, 1, 0, 1, 1, 1, 1, 1, 1, 1, 1, 1, 1, 1, 1, 1, 1, 1, 1, 1, 1, 1, 1, 1, 1, 1, 1, 1, 1, 1, 1, 0, 0, 0, 0, 1, 0, 1, 1, 1, 1, 1, 1, 1, 1, 1, 1, 1, 1, 1, 1, 1, 1, 1, 1, 1, 1, 1, 1, 1, 1, 1, 1, 0, 0, 0, 1, 0, 0, 0, 0, 0, 0, 0, 0, 0, 0, 0, 0, 0, 0, 0, 0, 0, 0, 0, 0, 0, 0, 0, 0, 0, 0, 0, 0, 0, 0, 0, 0, 0, 0, 0, 0, 0, 0, 0, 0, 0, 0, 0, 0, 0, 0, 0, 0, 0, 0, 0, 0, 0, 0, 0, 0, 0, 0, 0, 0, 0, 0, 0, 0, 0, 0, 0, 0, 0, 0, 0, 0, 0, 0, 0, 0, 0, 0, 0, 0, 0, 0, 0, 0, 0, 0, 0, 0, 0, 0, 0, 0, 0, 0, 0, 0, 0, 0, 0, 0, 0, 0, 0, 0, 0, 0, 0, 0, 0, 0, 0, 0, 0, 0, 0, 0, 0, 0, 0, 0, 0, 0, 0, 0, 0, 0, 0, 0, 0]

/-- Byte classification table utf8lenTable from util.go. -/
def utf8lenTable : List Nat :=
  [1, 1, 1, 1, 1, 1, 1, 1, 1, 1, 1, 1, 1, 1, 1, 1, 1, 1, 1, 1, 1, 1, 1, 1, 1, 1, 1, 1, 1, 1, 1, 1, 1, 1, 1, 1, 1, 1, 1, 1, 1, 1, 1, 1, 1, 1, 1, 1, 1, 1, 1, 1, 1, 1, 1, 1, 1, 1, 1, 1, 1, 1, 1, 1, 1, 1, 1, 1, 1, 1, 1, 1, 1, 1, 1, 1, 1, 1, 1, 1, 1, 1, 1, 1, 1, 1, 1, 1, 1, 1, 1, 1, 1, 1, 1, 1, 1, 1, 1, 1, 1, 1, 1, 1, 1, 1, 1, 1, 1, 1, 1, 1, 1, 1, 1, 1, 1, 1, 1, 1, 1, 1, 1, 1, 1, 1, 1, 1, 99, 99, 99, 99, 99, 99, 99, 99, 99, 99, 99, 99, 99, 99, 99, 99, 99, 99, 99, 99, 99, 99, 99, 99, 99, 99, 99, 99, 99, 99, 99, 99, 99, 99, 99, 99, 99, 99, 99, 99, 99, 99, 99, 99, 99, 99, 99, 99, 99, 99, 99, 99, 99, 99, 99, 99, 99, 99, 99, 99, 99, 99, 99, 99, 99, 99, 2, 2, 2, 2, 2, 2, 2, 2, 2, 2, 2, 2, 2, 2, 2, 2, 2, 2, 2, 2, 2, 2, 2, 2, 2, 2, 2, 2, 2, 2, 3, 3, 3, 3, 3, 3, 3, 3, 3, 3, 3, 3, 3, 3, 3, 3, 4, 4, 4, 4, 4, 4, 4, 4, 99, 99, 99, 99, 99, 99, 99, 99]

/-- Byte classification table urlTable from util.go. -/
def urlTable : List Nat :=
  [0, 0, 0, 0, 0, 0, 0, 0, 0, 0, 0, 0, 0, 0, 0, 0, 0, 0, 0, 0, 0, 0, 0, 0, 0, 0, 0, 0, 0, 0, 0, 0, 0, 1, 1, 1, 1, 1, 1, 1, 1, 1, 1, 5, 1, 5, 5, 1, 5, 5, 5, 5, 5, 5, 5, 5, 5, 5, 1, 1, 0, 1, 0, 1, 1, 7, 7, 7, 7, 7, 7, 7, 7, 7, 7, 7, 7, 7, 7, 7, 7, 7, 7, 7, 7, 7, 7, 7, 7, 7, 7, 1, 1, 1, 1, 1, 1, 7, 7, 7, 7, 7, 7, 7, 7, 7, 7, 7, 7, 7, 7, 7, 7, 7, 7, 7, 7, 7, 7, 7, 7, 7, 7, 1, 1, 1, 1, 1, 1, 1, 1, 1, 1, 1, 1, 1, 1, 1, 1, 1, 1, 1, 1, 1, 1, 1, 1, 1, 1, 1, 1, 1, 1, 1, 1, 1, 1, 1, 1, 1, 1, 1, 1, 1, 1, 1, 1, 1, 1, 1, 1, 1, 1, 1, 1, 1, 1, 1, 1, 1, 1, 1, 1, 1, 1, 1, 1, 1, 1, 1, 1, 1, 1, 1, 1, 1, 1, 1, 1, 1, 1, 1, 1, 1, 1, 1, 1, 1, 1, 1, 1, 1, 1, 1, 1, 1, 1, 1, 1, 1, 1, 1, 1, 1, 1, 1, 1, 1, 1, 1, 1, 1, 1, 1, 1, 1, 1, 1, 1, 1, 1, 1, 1, 1, 1, 1, 1, 1, 1, 1, 1, 1, 1, 1, 1, 1]

/-- HTML escape table from util.go: non-nil exactly at the bytes of QUOT, AMP, LT, GT. -/
def htmlEscapeTable : List (Option (List Nat)) :=
  [none, none, none, none, none, none, none, none, none, none, none, none, none, none, none, none,
   none, none, none, none, none, none, none, none, none, none, none, none, none, none, none, none,
   none, none, some [38, 113, 117, 111, 116, 59], none, none, none, some [38, 97, 109, 112, 59],
   none, none, none, none, none, none, none, none, none, none, none, none, none, none, none, none,
   none, none, none, none, none, some [38, 108, 116, 59], none, some [38, 103, 116, 59], none, none,
   none, none, none, none, none, none, none, none, none, none, none, none, none, none, none, none,
   none, none, none, none, none, none, none, none, none, none, none, none, none, none, none, none,
   none, none, none, none, none, none, none, none, none, none, none, none, none, none, none, none,
   none, none, none, none, none, none, none, none, none, none, none, none, none, none, none, none,
   none, none, none, none, none, none, none, none, none, none, none, none, none, none, none, none,
   none, none, none, none, none, none, none, none, none, none, none, none, none, none, none, none,
   none, none, none, none, none, none, none, none, none, none, none, none, none, none, none, none,
   none, none, none, none, none, none, none, none, none, none, none, none, none, none, none, none,
   none, none, none, none, none, none, none, none, none, none, none, none, none, none, none, none,
   none, none, none, none, none, none, none, none, none, none, none, none, none, none, none, none,
   none, none, none, none, none, none, none, none, none, none, none, none, none, none, none, none,
   none, none, none, none, none, none, none, none, none, none, none, none, none, none, none]

/-- IsPunct from util.go: looks the byte up in punctTable. -/
def IsPunct (c : Nat) : Bool :=
  punctTable.getD c 0 == 1

/-- IsSpace from util.go: looks the byte up in spaceTable. -/
def IsSpace (c : Nat) : Bool :=
  spaceTable.getD c 0 == 1

/-- IsNumeric from util.go. -/
def IsNumeric (c : Nat) : Bool :=
  decide (48 <= c ∧ c <= 57)

/-- IsHexDecimal from util.go. -/
def IsHexDecimal (c : Nat) : Bool :=
  decide ((48 <= c ∧ c <= 57) ∨ (97 <= c ∧ c <= 102) ∨ (65 <= c ∧ c <= 70))

/-- IsAlphaNumeric from util.go. -/
def IsAlphaNumeric (c : Nat) : Bool :=
  decide ((97 <= c ∧ c <= 122) ∨ (65 <= c ∧ c <= 90) ∨ (48 <= c ∧ c <= 57))

/-- IsBlank from util.go: true when every byte of the slice is a space byte. -/
def IsBlank (bs : List Nat) : Bool :=
  bs.all (fun b => IsSpace b)

/-- IsEscapedPunctuation from util.go: byte i is a backslash followed by a
punctuation byte (the call sites guarantee i is in bounds). -/
def IsEscapedPunctuation (source : List Nat) (i : Nat) : Bool :=
  source.getD i 0 == 92 && decide (i + 1 < source.length) && IsPunct (source.getD (i + 1) 0)

/-- ReadWhile from util.go: advance j while pred holds, up to limit; the
returned Bool records whether at least one byte satisfied pred. -/
def ReadWhile (source : List Nat) (j limit : Nat) (pred : Nat -> Bool) (ok : Bool) :
    Nat × Bool :=
  if j < limit then
    (if pred (source.getD j 0) then ReadWhile source (j + 1) limit pred true else (j, ok))
  else (j, ok)
termination_by limit - j
decreasing_by omega

/-- Go slice expression source[a:b] (well-formed uses only: a <= b <= length). -/
def goSlice (s : List Nat) (a b : Nat) : List Nat :=
  (s.take b).drop a

/-- CopyOnWriteBuffer from util.go: a byte buffer plus the copied flag. -/
structure CopyOnWriteBuffer where
  buffer : List Nat
  copied : Bool
deriving DecidableEq, Repr

/-- NewCopyOnWriteBuffer from util.go. -/
def NewCopyOnWriteBuffer (buffer : List Nat) : CopyOnWriteBuffer :=
  { buffer := buffer, copied := false }

/-- CopyOnWriteBuffer.Write from util.go: on the first write the borrowed
buffer is replaced by a fresh (empty) one before appending. -/
def CopyOnWriteBuffer.Write (b : CopyOnWriteBuffer) (value : List Nat) : CopyOnWriteBuffer :=
  if b.copied then { buffer := b.buffer ++ value, copied := true }
  else { buffer := value, copied := true }

/-- CopyOnWriteBuffer.WriteByte from util.go. -/
def CopyOnWriteBuffer.WriteByteVal (b : CopyOnWriteBuffer) (c : Nat) : CopyOnWriteBuffer :=
  if b.copied then { buffer := b.buffer ++ [c], copied := true }
  else { buffer := [c], copied := true }

/-- CopyOnWriteBuffer.Bytes from util.go. -/
def CopyOnWriteBuffer.Bytes (b : CopyOnWriteBuffer) : List Nat :=
  b.buffer

/-- CopyOnWriteBuffer.IsCopied from util.go. -/
def CopyOnWriteBuffer.IsCopied (b : CopyOnWriteBuffer) : Bool :=
  b.copied

/-- End of the run of backtick (byte 96) characters starting at i; models the
inner run-counting loops of FindClosure in util.go. -/
def tickRunEnd (bs : List Nat) (i : Nat) : Nat :=
  if i < bs.length then
    (if bs.getD i 0 == 96 then tickRunEnd bs (i + 1) else i)
  else i
termination_by bs.length - i
decreasing_by omega

theorem le_tickRunEnd (bs : List Nat) (i : Nat) : i <= tickRunEnd bs i := by
  rw [tickRunEnd]
  split
  · split
    · have h := le_tickRunEnd bs (i + 1)
      omega
    · exact Nat.le_refl i
  · exact Nat.le_refl i
termination_by bs.length - i
decreasing_by omega

/-- The scanning loop of FindClosure from util.go. The Go loop increments i
once more after each backtick-run branch, so the byte directly after a run is
not examined. -/
def FindClosureLoop (bs : List Nat) (opener closure : Nat) (codeSpan allowNesting : Bool)
    (i : Nat) (opened : Int) (codeSpanOpener : Nat) : Int :=
  if hlen : i < bs.length then
    let c := bs.getD i 0
    if codeSpan && codeSpanOpener != 0 && c == 96 then
      let j := tickRunEnd bs i
      let codeSpanCloser := j - i
      FindClosureLoop bs opener closure codeSpan allowNesting (j + 1) opened
        (if codeSpanCloser == codeSpanOpener then 0 else codeSpanOpener)
    else if c == 92 && decide (i < bs.length - 1) && IsPunct (bs.getD (i + 1) 0) then
      FindClosureLoop bs opener closure codeSpan allowNesting (i + 2) opened codeSpanOpener
    else if codeSpan && codeSpanOpener == 0 && c == 96 then
      let j := tickRunEnd bs i
      FindClosureLoop bs opener closure codeSpan allowNesting (j + 1) opened (j - i)
    else if (codeSpan && codeSpanOpener == 0) || !codeSpan then
      if c == closure then
        (if opened - 1 == 0 then (i : Int)
         else FindClosureLoop bs opener closure codeSpan allowNesting (i + 1) (opened - 1)
           codeSpanOpener)
      else if c == opener then
        (if !allowNesting then -1
         else FindClosureLoop bs opener closure codeSpan allowNesting (i + 1) (opened + 1)
           codeSpanOpener)
      else FindClosureLoop bs opener closure codeSpan allowNesting (i + 1) opened codeSpanOpener
    else FindClosureLoop bs opener closure codeSpan allowNesting (i + 1) opened codeSpanOpener
  else -1
termination_by bs.length - i
decreasing_by
  all_goals
    first
      | omega
      | (have h := le_tickRunEnd bs i; omega)

/-- FindClosure from util.go. -/
def FindClosure (bs : List Nat) (opener closure : Nat) (codeSpan allowNesting : Bool) : Int :=
  FindClosureLoop bs opener closure codeSpan allowNesting 0 1 0


theorem le_ReadWhile (source : List Nat) (j limit : Nat) (pred : Nat -> Bool) (ok : Bool) :
    j <= (ReadWhile source j limit pred ok).1 := by
  rw [ReadWhile]
  split
  · split
    · have h := le_ReadWhile source (j + 1) limit pred true
      omega
    · exact Nat.le_refl j
  · exact Nat.le_refl j
termination_by limit - j
decreasing_by omega

/-- Numeric value of a hex digit byte (also covers decimal digit bytes). -/
def hexVal (c : Nat) : Nat :=
  if 48 <= c ∧ c <= 57 then c - 48
  else if 97 <= c ∧ c <= 102 then c - 87
  else c - 55

/-- Value of a digit-byte string in the given base, accumulated left to right
as Go strconv does. -/
def digitsVal (base : Nat) (ds : List Nat) : Nat :=
  ds.foldl (fun acc c => acc * base + hexVal c) 0

/-- Models Go strconv.ParseUint(s, 16, 32) on a nonempty string of hex digit
bytes: the value, clipped to the 32-bit maximum on range error (util.go
discards the error and keeps the returned value). -/
def parseUintHex32 (ds : List Nat) : Nat :=
  min (digitsVal 16 ds) 4294967295

/-- Models Go strconv.ParseUint(s, 0, 32) on a nonempty string of decimal
digit bytes, as called by ResolveNumericReferences in util.go. Base 0 means
C-style prefix handling: a leading zero byte selects octal for the remaining
digits, and a digit 8 or 9 there is a syntax error, for which ParseUint
returns 0 (util.go discards the error). At most 7 digits reach this call, so
no range clipping can occur. -/
def parseUintBase0 (ds : List Nat) : Nat :=
  match ds with
  | [] => 0
  | d :: rest =>
    if d == 48 then (if rest.any (fun c => decide (56 <= c)) then 0 else digitsVal 8 rest)
    else digitsVal 10 ds

/-- Go conversion of a uint64 value below 2^32 to rune (int32): values with
the high bit set wrap to negative. -/
def runeOfUint32 (v : Nat) : Int :=
  if v < 2147483648 then (v : Int) else (v : Int) - 4294967296

/-- Models Go utf8.ValidRune: in range and not a surrogate. -/
def ValidRune (r : Int) : Bool :=
  decide ((0 <= r ∧ r < 55296) ∨ (57343 < r ∧ r <= 1114111))

/-- ToValidRune from util.go: 0xFFFD for zero or invalid runes. -/
def ToValidRune (v : Int) : Int :=
  if v == 0 || !ValidRune v then 65533 else v

/-- Models Go utf8.EncodeRune: the UTF-8 encoding of the rune, with the
replacement character for invalid runes. -/
def EncodeRune (r : Int) : List Nat :=
  if !ValidRune r then [239, 191, 189]
  else
    let n := r.toNat
    if n < 128 then [n]
    else if n < 2048 then [192 + n / 64, 128 + n % 64]
    else if n < 65536 then [224 + n / 4096, 128 + n / 64 % 64, 128 + n % 64]
    else [240 + n / 262144, 128 + n / 4096 % 64, 128 + n / 64 % 64, 128 + n % 64]

/-- EscapeHTMLByte from util.go. -/
def EscapeHTMLByte (b : Nat) : Option (List Nat) :=
  htmlEscapeTable.getD b none

/-- The scanning loop of EscapeHTML from util.go. -/
def EscapeHTMLLoop (v : List Nat) (i n : Nat) (cob : CopyOnWriteBuffer) : CopyOnWriteBuffer :=
  if i < v.length then
    match htmlEscapeTable.getD (v.getD i 0) none with
    | some escaped =>
      EscapeHTMLLoop v (i + 1) (i + 1) ((cob.Write (goSlice v n i)).Write escaped)
    | none => EscapeHTMLLoop v (i + 1) n cob
  else if cob.IsCopied then cob.Write (v.drop n) else cob
termination_by v.length - i
decreasing_by all_goals omega

/-- The final buffer state of EscapeHTML from util.go. -/
def EscapeHTMLCob (v : List Nat) : CopyOnWriteBuffer :=
  EscapeHTMLLoop v 0 0 (NewCopyOnWriteBuffer v)

/-- EscapeHTML from util.go. -/
def EscapeHTML (v : List Nat) : List Nat :=
  (EscapeHTMLCob v).Bytes

/-- The scanning loop of UnescapePunctuations from util.go. -/
def UnescapePunctuationsLoop (source : List Nat) (i n : Nat) (cob : CopyOnWriteBuffer) :
    CopyOnWriteBuffer :=
  if i < source.length then
    (if decide (i < source.length - 1) && source.getD i 0 == 92 &&
        IsPunct (source.getD (i + 1) 0) then
      UnescapePunctuationsLoop source (i + 2) (i + 2)
        ((cob.Write (goSlice source n i)).WriteByteVal (source.getD (i + 1) 0))
    else UnescapePunctuationsLoop source (i + 1) n cob)
  else if cob.IsCopied then cob.Write (source.drop n) else cob
termination_by source.length - i
decreasing_by all_goals omega

/-- The final buffer state of UnescapePunctuations from util.go. -/
def UnescapePunctuationsCob (source : List Nat) : CopyOnWriteBuffer :=
  UnescapePunctuationsLoop source 0 0 (NewCopyOnWriteBuffer source)

/-- UnescapePunctuations from util.go. -/
def UnescapePunctuations (source : List Nat) : List Nat :=
  (UnescapePunctuationsCob source).Bytes

/-- The scanning loop of ResolveNumericReferences from util.go. Returns none
exactly when the Go code panics: the statement nc := source[nnext] runs
before the bounds test nnext < limit, so a window whose last two bytes are
ampersand and hash indexes one past the end. -/
def ResolveNumericReferencesLoop (source : List Nat) (i n : Nat) (cob : CopyOnWriteBuffer) :
    Option CopyOnWriteBuffer :=
  if i < source.length then
    if source.getD i 0 == 38 then
      let pos := i
      let next := i + 1
      if decide (next < source.length) && source.getD next 0 == 35 then
        let nnext := next + 1
        if nnext < source.length then
          let nc := source.getD nnext 0
          if (decide (nnext < source.length) && nc == 120) || nc == 88 then
            let start := nnext + 1
            let r := ReadWhile source start source.length IsHexDecimal false
            if r.2 && decide (r.1 < source.length) && source.getD r.1 0 == 59 then
              let v := parseUintHex32 (goSlice source start r.1)
              ResolveNumericReferencesLoop source (r.1 + 1) (r.1 + 1)
                ((cob.Write (goSlice source n pos)).Write
                  (EncodeRune (ToValidRune (runeOfUint32 v))))
            else ResolveNumericReferencesLoop source next n cob
          else if decide (48 <= nc ∧ nc <= 57) then
            let start := nnext
            let r := ReadWhile source start source.length IsNumeric false
            if r.2 && decide (r.1 < source.length) && decide (r.1 - start < 8) &&
                source.getD r.1 0 == 59 then
              let v := parseUintBase0 (goSlice source start r.1)
              ResolveNumericReferencesLoop source (r.1 + 1) (r.1 + 1)
                ((cob.Write (goSlice source n pos)).Write
                  (EncodeRune (ToValidRune (runeOfUint32 v))))
            else ResolveNumericReferencesLoop source next n cob
          else ResolveNumericReferencesLoop source next n cob
        else none
      else ResolveNumericReferencesLoop source next n cob
    else ResolveNumericReferencesLoop source (i + 1) n cob
  else some (if cob.IsCopied then cob.Write (source.drop n) else cob)
termination_by source.length - i
decreasing_by
  all_goals
    first
      | omega
      | (have h := le_ReadWhile source (i + 1 + 1 + 1) source.length IsHexDecimal false; omega)
      | (have h := le_ReadWhile source (i + 1 + 1) source.length IsNumeric false; omega)

/-- ResolveNumericReferences from util.go; none models the panic. -/
def ResolveNumericReferences (source : List Nat) : Option (List Nat) :=
  (ResolveNumericReferencesLoop source 0 0 (NewCopyOnWriteBuffer source)).map
    (fun cob => cob.Bytes)

/-- The scanning loop of ResolveEntityNames from util.go. Modelled from the
spec: LookUpHTML5EntityByName and the HTML5 entity table live in files of the
util package that are not part of the provided source, and the spec treats
entity-name lookup as an external collaborator mapping a name to its
expansion character sequence, so the loop takes that lookup as a parameter
(none meaning the name is unknown and the reference is left untouched). -/
def ResolveEntityNamesLoop (lookup : List Nat -> Option (List Nat)) (source : List Nat)
    (i n : Nat) (cob : CopyOnWriteBuffer) : CopyOnWriteBuffer :=
  if i < source.length then
    if source.getD i 0 == 38 then
      let pos := i
      let next := i + 1
      if !(decide (next < source.length) && source.getD next 0 == 35) then
        let start := next
        let r := ReadWhile source start source.length IsAlphaNumeric false
        if r.2 && decide (r.1 < source.length) && source.getD r.1 0 == 59 then
          match lookup (goSlice source start r.1) with
          | some characters =>
            ResolveEntityNamesLoop lookup source (r.1 + 1) (r.1 + 1)
              ((cob.Write (goSlice source n pos)).Write characters)
          | none => ResolveEntityNamesLoop lookup source next n cob
        else ResolveEntityNamesLoop lookup source next n cob
      else ResolveEntityNamesLoop lookup source next n cob
    else ResolveEntityNamesLoop lookup source (i + 1) n cob
  else if cob.IsCopied then cob.Write (source.drop n) else cob
termination_by source.length - i
decreasing_by
  all_goals
    first
      | omega
      | (have h := le_ReadWhile source (i + 1) source.length IsAlphaNumeric false; omega)

/-- ResolveEntityNames from util.go, parameterized by the entity lookup. -/
def ResolveEntityNames (lookup : List Nat -> Option (List Nat)) (source : List Nat) :
    List Nat :=
  (ResolveEntityNamesLoop lookup source 0 0 (NewCopyOnWriteBuffer source)).Bytes

/-- htmlSpace from util.go: the three bytes of the percent-20 escape. -/
def htmlSpace : List Nat := [37, 50, 48]

/-- Uppercase hex digit byte for a value below 16. -/
def upperHexDigit (n : Nat) : Nat :=
  if n < 10 then 48 + n else 55 + n

/-- Models Go url.QueryEscape on one byte: ASCII letters, digits, hyphen,
underscore, dot and tilde pass through, a space becomes a plus, and every
other byte is percent-encoded with uppercase hex digits. -/
def queryEscapeByte (c : Nat) : List Nat :=
  if decide ((65 <= c ∧ c <= 90) ∨ (97 <= c ∧ c <= 122) ∨ (48 <= c ∧ c <= 57)) ||
      c == 45 || c == 95 || c == 46 || c == 126 then [c]
  else if c == 32 then [43]
  else [37, upperHexDigit (c / 16), upperHexDigit (c % 16)]

/-- Models Go url.QueryEscape on a byte string (util.go applies it to the
bytes of one UTF-8 encoded character at a time). -/
def QueryEscape (s : List Nat) : List Nat :=
  s.foldr (fun c acc => queryEscapeByte c ++ acc) []

theorem one_le_utf8len (c : Nat) : 1 <= utf8lenTable.getD c 99 := by
  have hall : utf8lenTable.all (fun x => decide (1 <= x)) = true := by rfl
  by_cases h : c < utf8lenTable.length
  · rw [List.getD_eq_getElem?_getD, List.getElem?_eq_getElem h]
    have hm := List.getElem_mem h
    simpa using List.all_eq_true.mp hall _ hm
  · rw [List.getD_eq_default _ _ (Nat.le_of_not_lt h)]
    omega

/-- The scanning loop of URLEscape from util.go. Two quirks of the source are
kept: the percent-triplet test checks IsHexDecimal(v[i+1]) twice and never
looks at v[i+2], and the slice expression v[i:i+u8len] runs past the end of
the window when a multi-byte UTF-8 lead byte sits close to the end, which for
a slice at full capacity is a Go panic, modelled as none. -/
def URLEscapeLoop (v : List Nat) (i n : Nat) (cob : CopyOnWriteBuffer) :
    Option CopyOnWriteBuffer :=
  if i < v.length then
    if urlEscapeTable.getD (v.getD i 0) 0 = 1 then URLEscapeLoop v (i + 1) n cob
    else if v.getD i 0 = 37 ∧ i + 2 < v.length ∧ IsHexDecimal (v.getD (i + 1) 0) = true ∧
        IsHexDecimal (v.getD (i + 1) 0) = true then
      URLEscapeLoop v (i + 3) n cob
    else if utf8lenTable.getD (v.getD i 0) 99 = 99 then URLEscapeLoop v (i + 1) n cob
    else if v.getD i 0 = 32 then
      URLEscapeLoop v (i + 1) (i + 1) ((cob.Write (goSlice v n i)).Write htmlSpace)
    else if i + utf8lenTable.getD (v.getD i 0) 99 <= v.length then
      URLEscapeLoop v (i + utf8lenTable.getD (v.getD i 0) 99)
        (i + utf8lenTable.getD (v.getD i 0) 99)
        ((cob.Write (goSlice v n i)).Write
          (QueryEscape (goSlice v i (i + utf8lenTable.getD (v.getD i 0) 99))))
    else none
  else some (if cob.IsCopied then cob.Write (v.drop n) else cob)
termination_by v.length - i
decreasing_by
  all_goals
    first
      | omega
      | (have h := one_le_utf8len (v.getD i 0); omega)

/-- The final buffer state of the URLEscape scan from util.go. -/
def URLEscapeCob (v : List Nat) : Option CopyOnWriteBuffer :=
  URLEscapeLoop v 0 0 (NewCopyOnWriteBuffer v)

/-- URLEscape from util.go. When resolveReference is set, the three
reference resolvers run first; ResolveEntityNames takes the external entity
lookup service as a parameter. none models a panic in a sub-step. -/
def URLEscape (lookup : List Nat -> Option (List Nat)) (v : List Nat)
    (resolveReference : Bool) : Option (List Nat) :=
  let pre : Option (List Nat) :=
    if resolveReference then
      (ResolveNumericReferences (UnescapePunctuations v)).map
        (fun b => ResolveEntityNames lookup b)
    else some v
  match pre with
  | none => none
  | some v1 =>
    match URLEscapeLoop v1 0 0 (NewCopyOnWriteBuffer v1) with
    | none => none
    | some cob => some cob.Bytes








/-- First index at or after i whose byte is not a space: the leading
whitespace loops of the attribute parser in util.go. -/
def skipSpaces (b : List Nat) (i : Nat) : Nat :=
  if i < b.length then
    (if IsSpace (b.getD i 0) then skipSpaces b (i + 1) else i)
  else i
termination_by b.length - i
decreasing_by omega

theorem le_skipSpaces (b : List Nat) (i : Nat) : i <= skipSpaces b i := by
  rw [skipSpaces]
  split
  · split
    · have h := le_skipSpaces b (i + 1)
      omega
    · exact Nat.le_refl i
  · exact Nat.le_refl i
termination_by b.length - i
decreasing_by omega

/-- The byte class consumed by the boolean-token loop of FindAttributeIndex
in util.go: not a space, and not a punctuation byte other than underscore
and hyphen. -/
def isBoolTokenByte (c : Nat) : Bool :=
  !IsSpace c && (!IsPunct c || c == 95 || c == 45)

/-- End of a boolean #id or .class token: the consuming loop of
FindAttributeIndex in util.go runs while the byte is neither a space nor a
punctuation byte other than underscore and hyphen. -/
def boolTokenEnd (b : List Nat) (i : Nat) : Nat :=
  if i < b.length then
    (if isBoolTokenByte (b.getD i 0) then boolTokenEnd b (i + 1) else i)
  else i
termination_by b.length - i
decreasing_by omega

theorem le_boolTokenEnd (b : List Nat) (i : Nat) : i <= boolTokenEnd b i := by
  rw [boolTokenEnd]
  split
  · split
    · have h := le_boolTokenEnd b (i + 1)
      omega
    · exact Nat.le_refl i
  · exact Nat.le_refl i
termination_by b.length - i
decreasing_by omega

/-- End of the attribute name run in FindHTMLAttributeIndex from util.go:
letters, digits, underscore, colon, dot, hyphen. -/
def nameRunEnd (b : List Nat) (i : Nat) : Nat :=
  if i < b.length then
    (if (97 <= b.getD i 0 ∧ b.getD i 0 <= 122) ∨ (65 <= b.getD i 0 ∧ b.getD i 0 <= 90) ∨
        (48 <= b.getD i 0 ∧ b.getD i 0 <= 57) ∨ b.getD i 0 = 95 ∨ b.getD i 0 = 58 ∨
        b.getD i 0 = 46 ∨ b.getD i 0 = 45 then
      nameRunEnd b (i + 1)
    else i)
  else i
termination_by b.length - i
decreasing_by omega

theorem le_nameRunEnd (b : List Nat) (i : Nat) : i <= nameRunEnd b i := by
  rw [nameRunEnd]
  split
  · split
    · have h := le_nameRunEnd b (i + 1)
      omega
    · exact Nat.le_refl i
  · exact Nat.le_refl i
termination_by b.length - i
decreasing_by omega

/-- Scan for the closing quote byte q in FindHTMLAttributeIndex from
util.go: the loop runs while b[i] is not q. -/
def quoteScan (b : List Nat) (i q : Nat) : Nat :=
  if i < b.length then
    (if b.getD i 0 ≠ q then quoteScan b (i + 1) q else i)
  else i
termination_by b.length - i
decreasing_by omega

theorem le_quoteScan (b : List Nat) (i q : Nat) : i <= quoteScan b i q := by
  rw [quoteScan]
  split
  · split
    · have h := le_quoteScan b (i + 1) q
      omega
    · exact Nat.le_refl i
  · exact Nat.le_refl i
termination_by b.length - i
decreasing_by omega

/-- End of a bare (unquoted) attribute value in FindHTMLAttributeIndex from
util.go: the run stops at backslash, quotes, equals, angle brackets,
backtick, braces, or any byte at or below 0x20. -/
def bareValueEnd (b : List Nat) (i : Nat) : Nat :=
  if i < b.length then
    (if b.getD i 0 = 92 ∨ b.getD i 0 = 34 ∨ b.getD i 0 = 39 ∨ b.getD i 0 = 61 ∨
        b.getD i 0 = 60 ∨ b.getD i 0 = 62 ∨ b.getD i 0 = 96 ∨ b.getD i 0 = 123 ∨
        b.getD i 0 = 125 ∨ b.getD i 0 <= 32 then i
     else bareValueEnd b (i + 1))
  else i
termination_by b.length - i
decreasing_by omega

theorem le_bareValueEnd (b : List Nat) (i : Nat) : i <= bareValueEnd b i := by
  rw [bareValueEnd]
  split
  · split
    · exact Nat.le_refl i
    · have h := le_bareValueEnd b (i + 1)
      omega
  · exact Nat.le_refl i
termination_by b.length - i
decreasing_by omega

/-- The value-parsing tail of FindHTMLAttributeIndex from util.go: at
position i3 (the first significant byte after the equals sign) parse a
double-quoted, single-quoted or bare value; i0 and i1 are the already
determined name offsets. -/
def FindHTMLAttributeValue (b : List Nat) (canEscapeQuotes : Bool) (i0 i1 i3 : Nat) :
    (Int × Int × Int × Int) × Nat :=
  if b.getD i3 0 = 34 then
    (if canEscapeQuotes then
      (if FindClosure (b.drop (i3 + 1)) 34 34 false false < 0 then ((-1, -1, -1, -1), 0)
       else (((i0 : Int), (i1 : Int), (i3 : Int) + 1,
         FindClosure (b.drop (i3 + 1)) 34 34 false false + ((i3 : Int) + 1)), 1))
    else
      (if i3 + 1 = quoteScan b (i3 + 1) 34 ∨
          (quoteScan b (i3 + 1) 34 = b.length ∧ b.getD (b.length - 1) 0 ≠ 34) then
        ((-1, -1, -1, -1), 0)
      else (((i0 : Int), (i1 : Int), (i3 : Int) + 1, (quoteScan b (i3 + 1) 34 : Int)), 1)))
  else if b.getD i3 0 = 39 then
    (if canEscapeQuotes then
      (if FindClosure (b.drop (i3 + 1)) 39 39 false false < 0 then ((-1, -1, -1, -1), 0)
       else (((i0 : Int), (i1 : Int), (i3 : Int) + 1,
         FindClosure (b.drop (i3 + 1)) 39 39 false false + ((i3 : Int) + 1)), 1))
    else
      (if i3 + 1 = quoteScan b (i3 + 1) 39 ∨
          (quoteScan b (i3 + 1) 39 = b.length ∧ b.getD (b.length - 1) 0 ≠ 39) then
        ((-1, -1, -1, -1), 0)
      else (((i0 : Int), (i1 : Int), (i3 : Int) + 1, (quoteScan b (i3 + 1) 39 : Int)), 1)))
  else
    (if i3 = bareValueEnd b i3 then ((-1, -1, -1, -1), 0)
     else (((i0 : Int), (i1 : Int), (i3 : Int), (bareValueEnd b i3 : Int)), 0))

/-- The part of FindHTMLAttributeIndex from util.go that follows the name
run: skip whitespace, require an equals sign, skip whitespace again, then
parse the value; i0 is the name start and i1 the position after the name. -/
def FindHTMLAttributeIndexAfterName (b : List Nat) (canEscapeQuotes : Bool) (i0 i1 : Nat) :
    (Int × Int × Int × Int) × Nat :=
  if skipSpaces b i1 >= b.length then ((-1, -1, -1, -1), 0)
  else if b.getD (skipSpaces b i1) 0 ≠ 61 then ((-1, -1, -1, -1), 0)
  else if skipSpaces b (skipSpaces b i1 + 1) >= b.length then ((-1, -1, -1, -1), 0)
  else FindHTMLAttributeValue b canEscapeQuotes i0 i1 (skipSpaces b (skipSpaces b i1 + 1))

theorem FindHTMLAttributeValue_progress (b : List Nat) (q : Bool) (i0 i1 i3 : Nat)
    (r0 r1 r2 r3 : Int) (skip : Nat)
    (heq : FindHTMLAttributeValue b q i0 i1 i3 = ((r0, r1, r2, r3), skip))
    (h : 0 <= r0) : 1 <= r3.toNat + skip := by
  have h1 := le_bareValueEnd b i3
  simp only [FindHTMLAttributeValue] at heq
  split_ifs at heq <;>
    (simp only [Prod.mk.injEq] at heq
     obtain ⟨⟨e0, e1, e2, e3⟩, e4⟩ := heq
     subst e0
     subst e3
     subst e4
     omega)

/-- FindHTMLAttributeIndex from util.go. The four Ints are name start/stop
and value start/stop with -1 sentinels; the Nat is the skip count. -/
def FindHTMLAttributeIndex (b : List Nat) (canEscapeQuotes : Bool) :
    (Int × Int × Int × Int) × Nat :=
  if skipSpaces b 0 >= b.length then ((-1, -1, -1, -1), 0)
  else if ¬((97 <= b.getD (skipSpaces b 0) 0 ∧ b.getD (skipSpaces b 0) 0 <= 122) ∨
      (65 <= b.getD (skipSpaces b 0) 0 ∧ b.getD (skipSpaces b 0) 0 <= 90) ∨
      b.getD (skipSpaces b 0) 0 = 95 ∨ b.getD (skipSpaces b 0) 0 = 58) then
    ((-1, -1, -1, -1), 0)
  else
    FindHTMLAttributeIndexAfterName b canEscapeQuotes (skipSpaces b 0)
      (nameRunEnd b (skipSpaces b 0))

/-- FindAttributeIndex from util.go: a #id or .class token is returned with
the name offsets spanning just the sigil byte and the value offsets spanning
from right after the sigil to the end of the identifier run; other input is
delegated to FindHTMLAttributeIndex. -/
def FindAttributeIndex (b : List Nat) (canEscapeQuotes : Bool) :
    (Int × Int × Int × Int) × Nat :=
  if skipSpaces b 0 >= b.length then ((-1, -1, -1, -1), 0)
  else if b.getD (skipSpaces b 0) 0 = 35 ∨ b.getD (skipSpaces b 0) 0 = 46 then
    (((skipSpaces b 0 : Int), (skipSpaces b 0 : Int) + 1, (skipSpaces b 0 : Int) + 1,
      (boolTokenEnd b (skipSpaces b 0 + 1) : Int)), 0)
  else FindHTMLAttributeIndex b canEscapeQuotes

theorem FindHTMLAttributeIndexAfterName_progress (b : List Nat) (q : Bool) (i0 i1 : Nat)
    (r0 r1 r2 r3 : Int) (skip : Nat)
    (heq : FindHTMLAttributeIndexAfterName b q i0 i1 = ((r0, r1, r2, r3), skip))
    (h : 0 <= r0) : 1 <= r3.toNat + skip := by
  simp only [FindHTMLAttributeIndexAfterName] at heq
  split_ifs at heq <;>
    first
      | (simp only [Prod.mk.injEq] at heq
         obtain ⟨⟨e0, e1, e2, e3⟩, e4⟩ := heq
         subst e0
         subst e3
         subst e4
         omega)
      | exact FindHTMLAttributeValue_progress b q i0 i1 _ r0 r1 r2 r3 skip heq h

theorem FindHTMLAttributeIndex_progress (b : List Nat) (q : Bool)
    (r0 r1 r2 r3 : Int) (skip : Nat)
    (heq : FindHTMLAttributeIndex b q = ((r0, r1, r2, r3), skip))
    (h : 0 <= r0) : 1 <= r3.toNat + skip := by
  simp only [FindHTMLAttributeIndex] at heq
  split_ifs at heq <;>
    first
      | (simp only [Prod.mk.injEq] at heq
         obtain ⟨⟨e0, e1, e2, e3⟩, e4⟩ := heq
         subst e0
         subst e3
         subst e4
         omega)
      | exact FindHTMLAttributeIndexAfterName_progress b q _ _ r0 r1 r2 r3 skip heq h

theorem FindAttributeIndex_progress (b : List Nat) (q : Bool)
    (r0 r1 r2 r3 : Int) (skip : Nat)
    (heq : FindAttributeIndex b q = ((r0, r1, r2, r3), skip))
    (h : 0 <= r0) : 1 <= r3.toNat + skip := by
  have h2 := le_boolTokenEnd b (skipSpaces b 0 + 1)
  simp only [FindAttributeIndex] at heq
  split_ifs at heq <;>
    first
      | (simp only [Prod.mk.injEq] at heq
         obtain ⟨⟨e0, e1, e2, e3⟩, e4⟩ := heq
         subst e0
         subst e3
         subst e4
         omega)
      | exact FindHTMLAttributeIndex_progress b q r0 r1 r2 r3 skip heq h

/-- The token-gathering loop of FindAttributeIndiciesReverse from util.go:
from position as (just after an opening brace) repeatedly apply
FindAttributeIndex, accumulating records (none models the Go nil slice) and
tracking the source variables as and i; returns (result, as, i). -/
def attrLoop (b : List Nat) (canEscapeQuotes : Bool) (as : Nat)
    (result : Option (List (Int × Int × Int × Int))) (i : Nat) :
    Option (List (Int × Int × Int × Int)) × Nat × Nat :=
  if h : as < b.length then
    if hai : (FindAttributeIndex (b.drop as) canEscapeQuotes).1.1 < 0 then (result, as, i)
    else
      attrLoop b canEscapeQuotes
        (as + (FindAttributeIndex (b.drop as) canEscapeQuotes).1.2.2.2.toNat +
          (FindAttributeIndex (b.drop as) canEscapeQuotes).2)
        (some (result.getD [] ++
          [((as : Int) + (FindAttributeIndex (b.drop as) canEscapeQuotes).1.1,
            (as : Int) + (FindAttributeIndex (b.drop as) canEscapeQuotes).1.2.1,
            (as : Int) + (FindAttributeIndex (b.drop as) canEscapeQuotes).1.2.2.1,
            (as : Int) + (FindAttributeIndex (b.drop as) canEscapeQuotes).1.2.2.2)]))
        (as + (FindAttributeIndex (b.drop as) canEscapeQuotes).1.2.2.2.toNat)
  else (result, as, i)
termination_by b.length - as
decreasing_by
  have heqx : FindAttributeIndex (b.drop as) canEscapeQuotes =
      (((FindAttributeIndex (b.drop as) canEscapeQuotes).1.1,
        (FindAttributeIndex (b.drop as) canEscapeQuotes).1.2.1,
        (FindAttributeIndex (b.drop as) canEscapeQuotes).1.2.2.1,
        (FindAttributeIndex (b.drop as) canEscapeQuotes).1.2.2.2),
       (FindAttributeIndex (b.drop as) canEscapeQuotes).2) := rfl
  have hp := FindAttributeIndex_progress (b.drop as) canEscapeQuotes _ _ _ _ _ heqx (by omega)
  omega

theorem attrLoop_i_le (b : List Nat) (q : Bool) (as : Nat)
    (result : Option (List (Int × Int × Int × Int))) (i : Nat) (h : i <= as) :
    i <= (attrLoop b q as result i).2.2 := by
  rw [attrLoop]
  split
  · split
    · exact Nat.le_refl i
    · refine Nat.le_trans ?_ (attrLoop_i_le b q _ _ _ ?_)
      · omega
      · omega
  · exact Nat.le_refl i
termination_by b.length - as
decreasing_by
  have heqx : FindAttributeIndex (b.drop as) q =
      (((FindAttributeIndex (b.drop as) q).1.1,
        (FindAttributeIndex (b.drop as) q).1.2.1,
        (FindAttributeIndex (b.drop as) q).1.2.2.1,
        (FindAttributeIndex (b.drop as) q).1.2.2.2),
       (FindAttributeIndex (b.drop as) q).2) := rfl
  have hp := FindAttributeIndex_progress (b.drop as) q _ _ _ _ _ heqx (by omega)
  omega

/-- FindAttributeIndiciesReverse from util.go, the goto-retry control flow
modelled as one recursion over the scan position i: scan for an opening
brace skipping escaped punctuation, gather tokens, test the success
condition, and on failure retry the brace scan from the current value of i.
The outer none models the Go panic: when the token scan stops with as equal
to len(b), the success test b[as] indexes one past the end of the window.
The inner Option is the returned Go slice, none being nil. -/
def FindAttributeIndiciesReverseLoop (b : List Nat) (canEscapeQuotes : Bool) (i : Nat) :
    Option (Option (List (Int × Int × Int × Int))) :=
  if hlt : i < b.length then
    if IsEscapedPunctuation b i then FindAttributeIndiciesReverseLoop b canEscapeQuotes (i + 2)
    else if b.getD i 0 = 123 then
      (if hok : (attrLoop b canEscapeQuotes (i + 1) none (i + 1)).2.1 < b.length then
        (if b.getD (attrLoop b canEscapeQuotes (i + 1) none (i + 1)).2.1 0 = 125 ∧
            (((attrLoop b canEscapeQuotes (i + 1) none (i + 1)).2.1 : Int) >
                (b.length : Int) - 2 ∨
              IsBlank (b.drop (attrLoop b canEscapeQuotes (i + 1) none (i + 1)).2.1) = true) then
          some (attrLoop b canEscapeQuotes (i + 1) none (i + 1)).1
        else
          FindAttributeIndiciesReverseLoop b canEscapeQuotes
            (attrLoop b canEscapeQuotes (i + 1) none (i + 1)).2.2)
      else none)
    else FindAttributeIndiciesReverseLoop b canEscapeQuotes (i + 1)
  else some none
termination_by b.length - i
decreasing_by
  · omega
  · have hi := attrLoop_i_le b canEscapeQuotes (i + 1) none (i + 1) (Nat.le_refl (i + 1))
    omega
  · omega

/-- FindAttributeIndiciesReverse from util.go. -/
def FindAttributeIndiciesReverse (b : List Nat) (canEscapeQuotes : Bool) :
    Option (Option (List (Int × Int × Int × Int))) :=
  FindAttributeIndiciesReverseLoop b canEscapeQuotes 0






/-- The scheme loop of FindURLIndex from util.go: advance while the urlTable
entry has bit 4 set. -/
def schemeEnd (b : List Nat) (i : Nat) : Nat :=
  if i < b.length then
    (if urlTable.getD (b.getD i 0) 0 &&& 4 = 4 then schemeEnd b (i + 1) else i)
  else i
termination_by b.length - i
decreasing_by omega

/-- The path loop of FindURLIndex from util.go: advance while the urlTable
entry has bit 1 set. -/
def pathEnd (b : List Nat) (i : Nat) : Nat :=
  if i < b.length then
    (if urlTable.getD (b.getD i 0) 0 &&& 1 = 1 then pathEnd b (i + 1) else i)
  else i
termination_by b.length - i
decreasing_by omega

/-- FindURLIndex from util.go. Note that the guard rejects the scheme only
when its length exceeds 33 bytes, although the documentation comment of the
Go function promises the regular expression bound of at most 32. -/
def FindURLIndex (b : List Nat) : Int :=
  if ¬(0 < b.length ∧ urlTable.getD (b.getD 0 0) 0 &&& 7 = 7) then -1
  else if schemeEnd b 1 = 1 ∨ schemeEnd b 1 > 33 ∨ schemeEnd b 1 >= b.length then -1
  else if b.getD (schemeEnd b 1) 0 ≠ 58 then -1
  else (pathEnd b (schemeEnd b 1 + 1) : Int)

/-- PrioritizedValue from util.go: an arbitrary value paired with an integer
priority. The Go Value field has interface type; the embedding is generic
over the value type, with decidable equality standing in for Go interface
equality. -/
structure PrioritizedValue (α : Type) where
  Value : α
  Priority : Int
deriving DecidableEq, Repr

/-- PrioritizedSlice from util.go. -/
def PrioritizedSlice (α : Type) : Type :=
  List (PrioritizedValue α)

/-- The scan of PrioritizedSlice.Remove from util.go: the index of the first
element whose Value equals v, together with the found flag. -/
def removeScan {α : Type} [DecidableEq α] (s : List (PrioritizedValue α)) (v : α) (i : Nat) :
    Nat × Bool :=
  if h : i < s.length then
    (if (s.get ⟨i, h⟩).Value = v then (i, true) else removeScan s v (i + 1))
  else (i, false)
termination_by s.length - i
decreasing_by omega

/-- PrioritizedSlice.Remove from util.go: when no element matches, the slice
itself is returned; otherwise the result of append(s[:i], s[i+1:]...), the
slice with the element at the first matching index removed. -/
def PrioritizedSlice.Remove {α : Type} [DecidableEq α] (s : List (PrioritizedValue α))
    (v : α) : List (PrioritizedValue α) :=
  if (removeScan s v 0).2 then
    s.take (removeScan s v 0).1 ++ s.drop ((removeScan s v 0).1 + 1)
  else s

theorem removeScan_shift {α : Type} [DecidableEq α] (x : PrioritizedValue α)
    (s : List (PrioritizedValue α)) (v : α) (i : Nat) :
    removeScan (x :: s) v (i + 1) = ((removeScan s v i).1 + 1, (removeScan s v i).2) := by
  conv_lhs => rw [removeScan]
  conv_rhs => rw [removeScan]
  by_cases h : i < s.length
  · have h2 : i + 1 < (x :: s).length := by simp only [List.length_cons]; omega
    rw [dif_pos h2, dif_pos h]
    have hget : (x :: s).get ⟨i + 1, h2⟩ = s.get ⟨i, h⟩ := rfl
    rw [hget]
    by_cases hv : (s.get ⟨i, h⟩).Value = v
    · rw [if_pos hv, if_pos hv]
    · rw [if_neg hv, if_neg hv]
      exact removeScan_shift x s v (i + 1)
  · have h2 : ¬(i + 1 < (x :: s).length) := by simp only [List.length_cons]; omega
    rw [dif_neg h2, dif_neg h]
termination_by s.length - i
decreasing_by omega

theorem removeScan_cons_eq {α : Type} [DecidableEq α] (x : PrioritizedValue α)
    (s : List (PrioritizedValue α)) (v : α) (hx : x.Value = v) :
    removeScan (x :: s) v 0 = (0, true) := by
  rw [removeScan]
  have h0 : 0 < (x :: s).length := by simp
  rw [dif_pos h0]
  have hget : (x :: s).get ⟨0, h0⟩ = x := rfl
  rw [hget, if_pos hx]

theorem removeScan_cons_ne {α : Type} [DecidableEq α] (x : PrioritizedValue α)
    (s : List (PrioritizedValue α)) (v : α) (hx : x.Value ≠ v) :
    removeScan (x :: s) v 0 = ((removeScan s v 0).1 + 1, (removeScan s v 0).2) := by
  rw [removeScan]
  have h0 : 0 < (x :: s).length := by simp
  rw [dif_pos h0]
  have hget : (x :: s).get ⟨0, h0⟩ = x := rfl
  rw [hget, if_neg hx]
  exact removeScan_shift x s v 0

theorem Remove_cons {α : Type} [DecidableEq α] (x : PrioritizedValue α)
    (s : List (PrioritizedValue α)) (v : α) :
    PrioritizedSlice.Remove (x :: s) v =
      (if x.Value = v then s else x :: PrioritizedSlice.Remove s v) := by
  by_cases hx : x.Value = v
  · rw [if_pos hx]
    unfold PrioritizedSlice.Remove
    rw [removeScan_cons_eq x s v hx]
    simp
  · rw [if_neg hx]
    unfold PrioritizedSlice.Remove
    rw [removeScan_cons_ne x s v hx]
    dsimp only
    by_cases hf : (removeScan s v 0).2 = true
    · rw [if_pos hf, if_pos hf]
      rw [List.take_succ_cons, List.drop_succ_cons]
      simp
    · rw [if_neg hf, if_neg hf]

theorem Remove_nil {α : Type} [DecidableEq α] (v : α) :
    PrioritizedSlice.Remove ([] : List (PrioritizedValue α)) v = [] := by
  unfold PrioritizedSlice.Remove
  rw [removeScan]
  simp




theorem getD_of_lt (v : List Nat) (i : Nat) (h : i < v.length) : v.getD i 0 = v[i] := by
  rw [List.getD_eq_getElem?_getD, List.getElem?_eq_getElem h, Option.getD_some]

theorem getD_mem_of_lt (v : List Nat) (i : Nat) (h : i < v.length) : v.getD i 0 ∈ v := by
  rw [getD_of_lt v i h]
  exact List.getElem_mem h

theorem htmlEscapeTable_eq_none (c : Nat) (h : ¬(c = 34 ∨ c = 38 ∨ c = 60 ∨ c = 62)) :
    htmlEscapeTable.getD c none = none := by
  have hall : (List.range 256).all
      (fun c => decide (c = 34 ∨ c = 38 ∨ c = 60 ∨ c = 62 ∨
        htmlEscapeTable.getD c none = none)) = true := by rfl
  by_cases hc : c < 256
  · have hmem : c ∈ List.range 256 := List.mem_range.mpr hc
    have hd := of_decide_eq_true (List.all_eq_true.mp hall c hmem)
    rcases hd with h1 | h1 | h1 | h1 | h1
    · exact absurd (Or.inl h1) h
    · exact absurd (Or.inr (Or.inl h1)) h
    · exact absurd (Or.inr (Or.inr (Or.inl h1))) h
    · exact absurd (Or.inr (Or.inr (Or.inr h1))) h
    · exact h1
  · have hlen : htmlEscapeTable.length = 256 := by rfl
    exact List.getD_eq_default _ _ (by omega)

theorem EscapeHTMLLoop_clean (v : List Nat) (i n : Nat)
    (hclean : ∀ c ∈ v, htmlEscapeTable.getD c none = none) :
    EscapeHTMLLoop v i n (NewCopyOnWriteBuffer v) = NewCopyOnWriteBuffer v := by
  rw [EscapeHTMLLoop]
  split
  · rename_i hlt
    rw [hclean _ (getD_mem_of_lt v i hlt)]
    exact EscapeHTMLLoop_clean v (i + 1) n hclean
  · rfl
termination_by v.length - i
decreasing_by omega

theorem UnescapePunctuationsLoop_clean (v : List Nat) (i n : Nat)
    (h : ∀ j, j + 1 < v.length → ¬(v.getD j 0 = 92 ∧ IsPunct (v.getD (j + 1) 0) = true)) :
    UnescapePunctuationsLoop v i n (NewCopyOnWriteBuffer v) = NewCopyOnWriteBuffer v := by
  rw [UnescapePunctuationsLoop]
  split
  · rename_i hlt
    split
    · rename_i hcond
      exfalso
      simp only [Bool.and_eq_true, decide_eq_true_eq, beq_iff_eq] at hcond
      exact h i (by omega) ⟨hcond.1.2, hcond.2⟩
    · exact UnescapePunctuationsLoop_clean v (i + 1) n h
  · rfl
termination_by v.length - i
decreasing_by omega

/-- The class of windows that, by the specification, URLEscape must leave
untouched: every byte is in the URL-safe set, except that a percent byte may
begin a triplet of percent followed by two hex digits, which is passed
through as a whole. -/
def urlSafeShape : List Nat → Bool
  | [] => true
  | c :: rest =>
    if urlEscapeTable.getD c 0 = 1 then urlSafeShape rest
    else if c = 37 then
      decide (2 <= rest.length) && IsHexDecimal (rest.getD 0 0) &&
        IsHexDecimal (rest.getD 1 0) && urlSafeShape (rest.drop 2)
    else false
termination_by l => l.length
decreasing_by
  · simp only [List.length_cons]
    omega
  · simp only [List.length_drop, List.length_cons]
    omega

theorem URLEscapeLoop_safe (v : List Nat) (i n : Nat)
    (hs : urlSafeShape (v.drop i) = true) :
    URLEscapeLoop v i n (NewCopyOnWriteBuffer v) = some (NewCopyOnWriteBuffer v) := by
  rw [URLEscapeLoop]
  split
  · rename_i hlt
    rw [List.drop_eq_getElem_cons hlt] at hs
    simp only [urlSafeShape] at hs
    rw [getD_of_lt v i hlt]
    by_cases hsafe : urlEscapeTable.getD v[i] 0 = 1
    · rw [if_pos hsafe]
      rw [if_pos hsafe] at hs
      exact URLEscapeLoop_safe v (i + 1) n hs
    · rw [if_neg hsafe] at hs
      by_cases h37 : v[i] = 37
      · rw [if_pos h37] at hs
        simp only [Bool.and_eq_true, decide_eq_true_eq] at hs
        obtain ⟨⟨⟨hlen, hx1⟩, hx2⟩, hrest⟩ := hs
        simp only [List.length_drop] at hlen
        have hi2 : i + 2 < v.length := by omega
        have hv1 : v.getD (i + 1) 0 = (v.drop (i + 1)).getD 0 0 := by
          rw [getD_of_lt v (i + 1) (by omega),
            getD_of_lt (v.drop (i + 1)) 0 (by simp only [List.length_drop]; omega),
            List.getElem_drop]
        rw [if_neg hsafe,
          if_pos ⟨h37, hi2, by rw [hv1]; exact hx1, by rw [hv1]; exact hx1⟩]
        apply URLEscapeLoop_safe v (i + 3) n
        have hdd : v.drop (i + 3) = (v.drop (i + 1)).drop 2 :=
          (List.drop_drop 2 (i + 1) v).symm
        rw [hdd]
        exact hrest
      · rw [if_neg h37] at hs
        exact absurd hs (by simp)
  · rfl
termination_by v.length - i
decreasing_by
  all_goals omega

/-- URLEscape with resolveReference off is the plain scan. -/
theorem URLEscape_false (lookup : List Nat -> Option (List Nat)) (v : List Nat) :
    URLEscape lookup v false =
      (match URLEscapeLoop v 0 0 (NewCopyOnWriteBuffer v) with
       | none => none
       | some cob => some cob.Bytes) := rfl


theorem skipSpaces_eq_of (b : List Nat) (k i : Nat) (hk : k <= i) (hi : i < b.length)
    (hsp : ∀ j, k <= j → j < i → IsSpace (b.getD j 0) = true)
    (hns : IsSpace (b.getD i 0) = false) : skipSpaces b k = i := by
  rw [skipSpaces]
  by_cases hki : k = i
  · subst hki
    rw [if_pos (by omega), if_neg (by rw [hns]; exact Bool.false_ne_true)]
  · rw [if_pos (by omega), if_pos (hsp k (Nat.le_refl k) (by omega))]
    exact skipSpaces_eq_of b (k + 1) i (by omega) hi
      (fun j h1 h2 => hsp j (by omega) h2) hns
termination_by i - k
decreasing_by omega

theorem boolTokenEnd_le_length (b : List Nat) (j : Nat) (h : j <= b.length) :
    boolTokenEnd b j <= b.length := by
  rw [boolTokenEnd]
  split
  · split
    · exact boolTokenEnd_le_length b (j + 1) (by omega)
    · omega
  · omega
termination_by b.length - j
decreasing_by omega

theorem boolTokenEnd_run (b : List Nat) (start j : Nat) (h1 : start <= j)
    (h2 : j < boolTokenEnd b start) : isBoolTokenByte (b.getD j 0) = true := by
  by_cases hlt : start < b.length
  · by_cases hc : isBoolTokenByte (b.getD start 0) = true
    · by_cases hj : j = start
      · subst hj
        exact hc
      · have heq : boolTokenEnd b start = boolTokenEnd b (start + 1) := by
          conv_lhs => rw [boolTokenEnd]
          rw [if_pos hlt, if_pos hc]
        rw [heq] at h2
        exact boolTokenEnd_run b (start + 1) j (by omega) h2
    · have heq : boolTokenEnd b start = start := by
        conv_lhs => rw [boolTokenEnd]
        rw [if_pos hlt, if_neg hc]
      rw [heq] at h2
      omega
  · have heq : boolTokenEnd b start = start := by
      conv_lhs => rw [boolTokenEnd]
      rw [if_neg hlt]
    rw [heq] at h2
    omega
termination_by b.length - start
decreasing_by omega

theorem boolTokenEnd_stop (b : List Nat) (start : Nat)
    (h : boolTokenEnd b start < b.length) :
    isBoolTokenByte (b.getD (boolTokenEnd b start) 0) = false := by
  by_cases hlt : start < b.length
  · by_cases hc : isBoolTokenByte (b.getD start 0) = true
    · have heq : boolTokenEnd b start = boolTokenEnd b (start + 1) := by
        conv_lhs => rw [boolTokenEnd]
        rw [if_pos hlt, if_pos hc]
      rw [heq] at h ⊢
      exact boolTokenEnd_stop b (start + 1) h
    · have heq : boolTokenEnd b start = start := by
        conv_lhs => rw [boolTokenEnd]
        rw [if_pos hlt, if_neg hc]
      rw [heq]
      simpa using hc
  · have heq : boolTokenEnd b start = start := by
      conv_lhs => rw [boolTokenEnd]
      rw [if_neg hlt]
    rw [heq] at h
    omega
termination_by b.length - start
decreasing_by omega


/-- C1: the claim that every exported scanning and resolving operation
terminates normally without reading out of bounds fails on the code.
ResolveNumericReferences executes nc := source[nnext] before testing
nnext against the limit, so the two-byte window ampersand hash indexes one
past the end; FindAttributeIndiciesReverse tests b[as] where the token scan
can leave as equal to len(b), so the one-byte window holding an opening
brace indexes one past the end. Both evaluate to none, the panic value of
the embedding. -/
theorem C1_panic_on_malformed_input :
    ResolveNumericReferences [38, 35] = none ∧
    FindAttributeIndiciesReverse [123] false = none := by
  constructor
  · simp +decide [ResolveNumericReferences, ResolveNumericReferencesLoop]
  · simp +decide [FindAttributeIndiciesReverse, FindAttributeIndiciesReverseLoop, attrLoop,
      FindAttributeIndex, FindHTMLAttributeIndex, skipSpaces, IsEscapedPunctuation,
      IsPunct, IsSpace]

/-- C2: on the window backtick a ) b backtick ) with closer ) and code-span
respect enabled, FindClosure does not return the offset 5 of the trailing
closing parenthesis demanded by the specification: the loop increment that
follows the closing backtick-run branch skips the byte directly after the
run, so the trailing closer is never examined and the scan returns the
sentinel -1 (with either value of allowNesting). -/
theorem C2_findclosure_skips_byte_after_code_span :
    FindClosure [96, 97, 41, 98, 96, 41] 40 41 true false = -1 ∧
    FindClosure [96, 97, 41, 98, 96, 41] 40 41 true true = -1 := by
  constructor <;> simp +decide [FindClosure, FindClosureLoop, tickRunEnd]

/-- C3: a numeric character reference whose digit run has a leading zero is
not decoded in base 10: ResolveNumericReferences passes the digit string to
ParseUint with base 0, so the window for the text ampersand hash 0 6 5
semicolon decodes as octal (065 in base 8 is 53) and substitutes the byte
for the digit five rather than 65, the letter A. A run without a leading
zero, as in ampersand hash 6 5 semicolon, still decodes to 65. -/
theorem C3_leading_zero_reference_parsed_as_octal :
    ResolveNumericReferences [38, 35, 48, 54, 53, 59] = some [53] ∧
    ResolveNumericReferences [38, 35, 54, 53, 59] = some [65] := by
  constructor <;>
    simp +decide [ResolveNumericReferences, ResolveNumericReferencesLoop, ReadWhile, IsNumeric,
      parseUintBase0, digitsVal, hexVal, goSlice, runeOfUint32, ToValidRune, ValidRune,
      EncodeRune, CopyOnWriteBuffer.Write, NewCopyOnWriteBuffer, CopyOnWriteBuffer.IsCopied,
      CopyOnWriteBuffer.Bytes]

/-- C4: an attribute block whose closing brace is followed only by a
trailing space yields no records, against the specification: the success
test applies IsBlank to the slice that still begins with the closing brace
itself, which is never blank, so the attempt is discarded, the retry finds
no further opening brace, and the nil slice comes back. The same block with
the brace as the last byte succeeds. -/
theorem C4_trailing_whitespace_rejected :
    FindAttributeIndiciesReverse [123, 35, 105, 100, 125, 32] false = some none ∧
    FindAttributeIndiciesReverse [123, 35, 105, 100, 125] false =
      some (some [(1, 2, 2, 4)]) := by
  constructor <;>
    simp +decide [FindAttributeIndiciesReverse, FindAttributeIndiciesReverseLoop, attrLoop,
      FindAttributeIndex, FindHTMLAttributeIndex, skipSpaces, boolTokenEnd, isBoolTokenByte,
      IsEscapedPunctuation, IsPunct, IsSpace, IsBlank]

/-- C5: a scheme of 33 bytes is accepted by FindURLIndex, against the claim
that schemes longer than 32 characters fail: the guard only rejects lengths
above 33, so 33 letters followed by a colon and a path byte match with stop
index 35. A two-byte scheme is accepted as the specification says. -/
theorem C5_scheme_of_33_bytes_accepted :
    FindURLIndex (List.replicate 33 97 ++ [58, 98]) = 35 ∧
    FindURLIndex [97, 98, 58, 99, 100] = 5 := by
  constructor <;> simp +decide [FindURLIndex, schemeEnd, pathEnd]

/-- C6: the percent-triplet test of URLEscape checks IsHexDecimal(v[i+1])
twice and never checks v[i+2], so the window percent 4 less-than is passed
through whole even though the less-than byte is not a hex digit and, per the
claim, should have been percent-encoded; a bare less-than byte is indeed
encoded to percent 3 C. -/
theorem C6_percent_second_digit_unchecked :
    URLEscape (fun _ => none) [37, 52, 60] false = some [37, 52, 60] ∧
    URLEscape (fun _ => none) [60] false = some [37, 51, 67] := by
  constructor <;>
    simp +decide [URLEscape, URLEscapeLoop, IsHexDecimal, NewCopyOnWriteBuffer,
      CopyOnWriteBuffer.IsCopied, CopyOnWriteBuffer.Bytes, CopyOnWriteBuffer.Write,
      goSlice, QueryEscape, queryEscapeByte, upperHexDigit]

/-- C7 counterexample: on the window hash i d, FindAttributeIndex returns
name offsets 0..1 and value offsets 1..3, so the value offsets do not equal
the name offsets as the claim states. -/
theorem C7_value_offsets_differ_from_name :
    ¬((FindAttributeIndex [35, 105, 100] false).1.1 =
        (FindAttributeIndex [35, 105, 100] false).1.2.2.1 ∧
      (FindAttributeIndex [35, 105, 100] false).1.2.1 =
        (FindAttributeIndex [35, 105, 100] false).1.2.2.2) := by
  have h : FindAttributeIndex [35, 105, 100] false = ((0, 1, 1, 3), 0) := by
    simp +decide [FindAttributeIndex, skipSpaces, boolTokenEnd, isBoolTokenByte, IsSpace, IsPunct]
  rw [h]
  decide

/-- C7 amended: for a boolean #id or .class token (first significant byte a
hash or dot after leading spaces), FindAttributeIndex returns name offsets
spanning only the sigil byte (name_end = name_start + 1), value offsets
starting right after the sigil (value_start = name_end) and ending at the
end of the maximal identifier run, with skip 0; the run consists exactly of
the bytes that are neither spaces nor punctuation other than underscore and
hyphen. -/
theorem C7_boolean_token_offsets (b : List Nat) (q : Bool) (i : Nat)
    (hi : i < b.length)
    (hsp : ∀ j, j < i → IsSpace (b.getD j 0) = true)
    (hns : IsSpace (b.getD i 0) = false)
    (hc : b.getD i 0 = 35 ∨ b.getD i 0 = 46) :
    FindAttributeIndex b q =
      (((i : Int), (i : Int) + 1, (i : Int) + 1, (boolTokenEnd b (i + 1) : Int)), 0) ∧
    i + 1 <= boolTokenEnd b (i + 1) ∧ boolTokenEnd b (i + 1) <= b.length ∧
    (∀ j, i + 1 <= j → j < boolTokenEnd b (i + 1) → isBoolTokenByte (b.getD j 0) = true) ∧
    (boolTokenEnd b (i + 1) < b.length →
      isBoolTokenByte (b.getD (boolTokenEnd b (i + 1)) 0) = false) := by
  have hss : skipSpaces b 0 = i :=
    skipSpaces_eq_of b 0 i (by omega) hi (fun j _ h2 => hsp j h2) hns
  refine ⟨?_, le_boolTokenEnd b (i + 1), boolTokenEnd_le_length b (i + 1) (by omega),
    fun j hj1 hj2 => boolTokenEnd_run b (i + 1) j hj1 hj2,
    fun hlt => boolTokenEnd_stop b (i + 1) hlt⟩
  unfold FindAttributeIndex
  rw [hss, if_neg (by omega), if_pos hc]

theorem C7_boolean_token_offsets_witness :
    FindAttributeIndex [35, 105, 100] false =
      ((0, 1, 1, (boolTokenEnd [35, 105, 100] 1 : Int)), 0) := by
  have h := (C7_boolean_token_offsets [35, 105, 100] false 0 (by decide)
    (fun j hj => absurd hj (by omega)) (by decide) (by decide)).1
  simpa using h

/-- C8: for every input needing no transformation the operation returns the
input byte-identically and the copy-on-write buffer never enters the copied
state: EscapeHTML when no byte is a double quote, ampersand, less-than or
greater-than; UnescapePunctuations when no backslash is followed by a
punctuation byte; URLEscape (references unresolved) when the window consists
of URL-safe bytes and percent-hex-hex triplets. -/
theorem C8_no_transformation_identity (v : List Nat)
    (lookup : List Nat -> Option (List Nat)) :
    ((∀ c ∈ v, ¬(c = 34 ∨ c = 38 ∨ c = 60 ∨ c = 62)) →
      EscapeHTML v = v ∧ (EscapeHTMLCob v).IsCopied = false) ∧
    ((∀ j, j + 1 < v.length → ¬(v.getD j 0 = 92 ∧ IsPunct (v.getD (j + 1) 0) = true)) →
      UnescapePunctuations v = v ∧ (UnescapePunctuationsCob v).IsCopied = false) ∧
    (urlSafeShape v = true →
      URLEscape lookup v false = some v ∧
      URLEscapeCob v = some (NewCopyOnWriteBuffer v)) := by
  refine ⟨fun h1 => ?_, fun h2 => ?_, fun h3 => ?_⟩
  · have key := EscapeHTMLLoop_clean v 0 0
      (fun c hc => htmlEscapeTable_eq_none c (h1 c hc))
    constructor
    · unfold EscapeHTML EscapeHTMLCob
      rw [key]
      rfl
    · unfold EscapeHTMLCob
      rw [key]
      rfl
  · have key := UnescapePunctuationsLoop_clean v 0 0 h2
    constructor
    · unfold UnescapePunctuations UnescapePunctuationsCob
      rw [key]
      rfl
    · unfold UnescapePunctuationsCob
      rw [key]
      rfl
  · have key := URLEscapeLoop_safe v 0 0 (by simpa using h3)
    constructor
    · rw [URLEscape_false, key]
      rfl
    · unfold URLEscapeCob
      exact key

theorem C8_no_transformation_identity_witness :
    EscapeHTML [104, 105] = [104, 105] ∧
    UnescapePunctuations [104, 105] = [104, 105] ∧
    URLEscape (fun _ => none) [104, 105] false = some [104, 105] := by
  have h := C8_no_transformation_identity [104, 105] (fun _ => none)
  refine ⟨(h.1 (by decide)).1, (h.2.1 ?_).1, (h.2.2 (by simp +decide [urlSafeShape])).1⟩
  intro j hj
  have hj0 : j = 0 := by simp at hj; omega
  subst hj0
  decide

/-- C10: PrioritizedSlice.Remove returns the slice unchanged when no element
has the given value, and otherwise removes exactly the first element whose
Value equals it, keeping every other element in order. -/
theorem C10_remove_first_match {α : Type} [DecidableEq α] (v : α)
    (s pre post : List (PrioritizedValue α)) (x : PrioritizedValue α) :
    ((∀ e ∈ s, e.Value ≠ v) → PrioritizedSlice.Remove s v = s) ∧
    ((∀ e ∈ pre, e.Value ≠ v) → x.Value = v →
      PrioritizedSlice.Remove (pre ++ x :: post) v = pre ++ post) := by
  constructor
  · intro h
    induction s with
    | nil => exact Remove_nil v
    | cons y t ih =>
      rw [Remove_cons, if_neg (h y (by simp)), ih (fun e he => h e (by simp [he]))]
  · intro hpre hx
    induction pre with
    | nil =>
      rw [List.nil_append, Remove_cons, if_pos hx, List.nil_append]
    | cons y t ih =>
      rw [List.cons_append, Remove_cons, if_neg (hpre y (by simp)),
        ih (fun e he => hpre e (by simp [he])), List.cons_append]

theorem C10_remove_first_match_witness :
    PrioritizedSlice.Remove
        ([⟨1, 10⟩, ⟨2, 20⟩, ⟨1, 30⟩] : List (PrioritizedValue Nat)) 2 =
      [⟨1, 10⟩, ⟨1, 30⟩] ∧
    PrioritizedSlice.Remove
        ([⟨1, 10⟩, ⟨2, 20⟩, ⟨1, 30⟩] : List (PrioritizedValue Nat)) 9 =
      [⟨1, 10⟩, ⟨2, 20⟩, ⟨1, 30⟩] := by
  constructor
  · have h := (C10_remove_first_match (2 : Nat) [] [⟨1, 10⟩] [⟨1, 30⟩] ⟨2, 20⟩).2
      (by decide) (by decide)
    simpa using h
  · exact (C10_remove_first_match (9 : Nat)
      ([⟨1, 10⟩, ⟨2, 20⟩, ⟨1, 30⟩] : List (PrioritizedValue Nat)) [] [] ⟨0, 0⟩).1 (by decide)


end GoldmarkUtil
